import Mathlib

/-!
Shallow embedding of the autorandr-rs daemon core
(`src/commands/daemon.rs` plus the pieces of the `config` module it uses).

The X11 connection is modelled as a pure environment (`XEnv`): every read
request (get_output_info, get_crtc_info, get_geometry, get_screen_resources)
becomes a field lookup, and every write request (set_crtc_config,
set_screen_size) becomes an element of an emitted request trace
(`XRequest`).  Fallible computation is `Except Error`.
-/

namespace Autorandr

/-- X11 resource identifiers (XIDs) are 32-bit, modelled as `Nat`. -/
abbrev Output := Nat
abbrev Crtc := Nat
abbrev ModeId := Nat
abbrev Timestamp := Nat

/-- Modelled from the spec: `Mode` from the missing `config` module.  §3 of
the spec describes it as a semantic (width, height) pair with structural
equality; constructed in `mode_map` from `mi.width`/`mi.height`. -/
structure Mode where
  w : Nat
  h : Nat
deriving DecidableEq, Repr

/-- Modelled from the spec: `Mode::union` from the missing `config` module.
§4.4(b) describes the grow step as setting the framebuffer "to the
component-wise maximum of current and target", which is what
`current.union(fb_size)` computes. -/
def Mode.union (a b : Mode) : Mode := ⟨max a.w b.w, max a.h b.h⟩

/-- Modelled from the spec: `Position` from the missing `config` module, the
(x, y) offset of an output within the framebuffer (§3).  Destructured as
`Position { x, y }` in `apply_config`. -/
structure Position where
  x : Int
  y : Int
deriving DecidableEq, Repr

/-- Modelled from the spec: `MonConfig` from the missing `config` module;
§3 describes it as desired Mode + Position for one monitor; `apply_config`
additionally uses its `name` field for the `NoCrtc` error. -/
structure MonConfig where
  name : String
  mode : Mode
  position : Position
deriving DecidableEq, Repr

/-- Modelled from the spec: a `Monitor` identity parsed from EDID data
(missing `config` module).  §3 only requires it to be opaque with a total,
stable order so identity sets can be sorted canonically; `Nat` is such a
type. -/
abbrev Monitor := Nat

/-- Modelled from the spec: `SingleConfig` from the missing `config` module,
destructured in `get_config` as `SingleConfig { name, setup, fb_size }`
where `setup` maps monitor identities to `MonConfig`s (a `HashMap`,
modelled as an association list queried by key equality). -/
structure SingleConfig where
  name : String
  setup : List (Monitor × MonConfig)
  fb_size : Mode
deriving DecidableEq, Repr

/-- Modelled from the spec: `Config` from the missing `config` module, a map
from canonical sorted monitor-identity lists to profiles
(`HashMap<Vec<Monitor>, SingleConfig>`, modelled as an association list
queried by key equality). -/
structure Config where
  entries : List (List Monitor × SingleConfig)

/-- One entry of `GetScreenResourcesReply.modes` (the fields `mode_map`
reads: `mi.id`, `mi.width`, `mi.height`). -/
structure ModeInfo where
  id : ModeId
  width : Nat
  height : Nat
deriving DecidableEq, Repr

/-- The fields of x11rb's `GetOutputInfoReply` the daemon reads. -/
structure GetOutputInfoReply where
  crtc : Crtc
  crtcs : List Crtc
  modes : List ModeId
  mm_width : Nat
  mm_height : Nat
deriving DecidableEq, Repr

/-- The fields of x11rb's `GetCrtcInfoReply` the daemon reads. -/
structure GetCrtcInfoReply where
  timestamp : Timestamp
  x : Int
  y : Int
  mode : ModeId
  rotation : Nat
  outputs : List Output
deriving DecidableEq, Repr

/-- x11rb's `SetCrtcConfigRequest`. -/
structure SetCrtcConfigRequest where
  crtc : Crtc
  timestamp : Timestamp
  config_timestamp : Timestamp
  x : Int
  y : Int
  mode : ModeId
  rotation : Nat
  outputs : List Output
deriving DecidableEq, Repr

/-- The daemon's error enum (`enum Error` in daemon.rs). -/
inductive Error where
  | ModeNotFound (m : Mode)
  | ModeNotSupported (m : Mode)
  | NoCrtc (name : String)
deriving DecidableEq, Repr

/-- The relevant fields of `GetScreenResourcesCurrentReply`. -/
structure ScreenResources where
  crtcs : List Crtc
  outputs : List Output

/-- The write requests `apply_config` can issue, in issue order. -/
inductive XRequest where
  | setCrtcConfig (r : SetCrtcConfigRequest)
  | setScreenSize (w h mm_w mm_h : Nat)
deriving DecidableEq, Repr

/-- The pure environment standing for the live X connection: replies to the
read requests the daemon sends. -/
structure XEnv where
  /-- `randr_get_screen_resources(root).modes` used by `mode_map`. -/
  screen_modes : List ModeInfo
  /-- Reply to `randr_get_output_info`. -/
  output_info : Output → GetOutputInfoReply
  /-- Reply to `randr_get_crtc_info`. -/
  crtc_info : Crtc → GetCrtcInfoReply
  /-- Width/height of the reply to `get_geometry(root)`. -/
  geometry : Mode

/-- `mode_map`: groups server mode identifiers by (width, height).  The
`HashMap<Mode, HashSet<u32>>` entry for `m` is here the list of ids of
screen modes whose size is `m`; the entry is absent iff that list is
empty. -/
def mode_map (modes : List ModeInfo) (m : Mode) : List ModeId :=
  (modes.filter (fun mi => mi.width == m.w && mi.height == m.h)).map (fun mi => mi.id)

/-- `find_mode_id`: resolve the target `Mode` to a concrete mode id the
output supports.  `ModeNotFound` when no server mode has the target size;
otherwise the first id in `info.modes` that lies in the size's id set, or
`ModeNotSupported` when none does. -/
def find_mode_id (info : GetOutputInfoReply) (modes : List ModeInfo) (mode : Mode) :
    Except Error ModeId :=
  let mode_ids := mode_map modes mode
  if mode_ids.isEmpty then
    .error (.ModeNotFound mode)
  else
    match info.modes.find? (fun m => mode_ids.contains m) with
    | some m => .ok m
    | none => .error (.ModeNotSupported mode)

/-- `disable_crtc`: a request disabling `crtc` (mode 0, no outputs), other
fields copied from the controller's current info. -/
def disable_crtc (crtc : Crtc) (fr : GetCrtcInfoReply) : SetCrtcConfigRequest :=
  { crtc := crtc
    timestamp := fr.timestamp
    config_timestamp := fr.timestamp
    x := fr.x
    y := fr.y
    mode := 0
    rotation := fr.rotation
    outputs := [] }

/-- `allocate_crtc`: prefer the output's bound crtc when nonzero, else the
first crtc-capable id still in the free set; the returned crtc is removed
from the free set (a no-op when absent).  The `HashSet<&Crtc>` free set is
modelled as a list with membership semantics; removal filters out the
element. -/
def allocate_crtc (info : GetOutputInfoReply) (free : List Crtc) :
    Option Crtc × List Crtc :=
  let dest := if info.crtc != 0 then some info.crtc
              else info.crtcs.find? (fun c => free.contains c)
  match dest with
  | some d => (some d, free.filter (fun c => c != d))
  | none => (none, free)

/-- The mutable state of `apply_config`'s first loop (over configured
outputs): the shrinking free-crtc set, the accumulated enable requests, and
the summed physical dimensions. -/
structure Step1State where
  free : List Crtc
  enables : List SetCrtcConfigRequest
  mm_w : Nat
  mm_h : Nat
deriving Repr

/-- One iteration of `apply_config`'s first loop, for a configured output
`out` with profile entry `conf`: resolve the mode, allocate a crtc (raising
`NoCrtc(conf.name)` on failure), accumulate physical size, and push an
enable request unless desired x, y and mode already equal the allocated
controller's current ones. -/
def process_output (env : XEnv) (conf : MonConfig) (out : Output) (st : Step1State) :
    Except Error Step1State := do
  let out_info := env.output_info out
  let mode ← find_mode_id out_info env.screen_modes conf.mode
  match allocate_crtc out_info st.free with
  | (none, _) => .error (.NoCrtc conf.name)
  | (some dest_crtc, free) =>
    let mm_w := st.mm_w + out_info.mm_width
    let mm_h := st.mm_h + out_info.mm_height
    let crtc_info := env.crtc_info dest_crtc
    let enables :=
      if conf.position.x != crtc_info.x || conf.position.y != crtc_info.y
          || mode != crtc_info.mode then
        st.enables ++ [{ disable_crtc dest_crtc crtc_info with
          x := conf.position.x
          y := conf.position.y
          rotation := 1
          mode := mode
          outputs := [out] }]
      else st.enables
    .ok { free := free, enables := enables, mm_w := mm_w, mm_h := mm_h }

/-- `apply_config`'s first loop: iterate over `res.outputs` restricted to
outputs present in `setup` (`outs_in_conf`), threading the free set and the
enable queue. -/
def step1 (env : XEnv) (setup : Output → Option MonConfig) (outputs : List Output)
    (free : List Crtc) : Except Error Step1State :=
  let outs_in_conf := outputs.filterMap (fun o => (setup o).map (fun c => (c, o)))
  outs_in_conf.foldlM (fun st co => process_output env co.1 co.2 st)
    { free := free, enables := [], mm_w := 0, mm_h := 0 }

/-- `apply_config`'s second loop: every crtc left in the free set that still
drives outputs or has a nonzero mode is queued for disabling. -/
def compute_disables (env : XEnv) (free : List Crtc) : List SetCrtcConfigRequest :=
  free.filterMap (fun crtc =>
    let info := env.crtc_info crtc
    if !info.outputs.isEmpty || info.mode != 0 then some (disable_crtc crtc info)
    else none)

/-- The write-request trace of `apply_config`'s commit branch: the disable
batch, the conditional grow of the framebuffer to `current.union fb_size`,
the enable batch, and the conditional final resize to `fb_size`. -/
def commit_trace (current fb_size : Mode) (disables enables : List SetCrtcConfigRequest)
    (mm_w mm_h : Nat) : List XRequest :=
  let grown := current.union fb_size
  disables.map XRequest.setCrtcConfig
    ++ (if current ≠ grown then [XRequest.setScreenSize grown.w grown.h mm_w mm_h] else [])
    ++ enables.map XRequest.setCrtcConfig
    ++ (if grown ≠ fb_size then [XRequest.setScreenSize fb_size.w fb_size.h mm_w mm_h] else [])

/-- `apply_config`: returns `(changed?, write-request trace)`.  Unchanged
(`false`, no writes) exactly when both queues are empty and the current
geometry equals the target; otherwise commits via `commit_trace` and
reports `true`. -/
def apply_config (env : XEnv) (res : ScreenResources) (fb_size : Mode)
    (setup : Output → Option MonConfig) : Except Error (Bool × List XRequest) :=
  match step1 env setup res.outputs res.crtcs with
  | .error e => .error e
  | .ok st =>
    let disables := compute_disables env st.free
    let current := env.geometry
    if disables.isEmpty && st.enables.isEmpty && current == fb_size then
      .ok (false, [])
    else
      .ok (true, commit_trace current fb_size disables st.enables st.mm_w st.mm_h)

/-- `get_monitors` (lib.rs): the map from outputs to parsed monitor
identities; outputs whose EDID is absent or unparseable are skipped.  EDID
reading and parsing are external collaborators, modelled as the oracle
`mon_of`. -/
def get_monitors (mon_of : Output → Option Monitor) (outputs : List Output) :
    List (Output × Monitor) :=
  outputs.filterMap (fun o => (mon_of o).map (fun m => (o, m)))

/-- `get_config`: sort the attached monitor identities into the canonical
key, look it up by exact equality in the profile map, and on a match return
the profile's name, framebuffer size, and the map from live outputs to
their `MonConfig` (restricted to outputs whose identity the profile
configures). -/
def get_config (config : Config) (mon_of : Output → Option Monitor)
    (outputs : List Output) :
    Option (String × Mode × List (Output × MonConfig)) :=
  let out_to_mon := get_monitors mon_of outputs
  let monitors := (out_to_mon.map Prod.snd).insertionSort (fun a b => a ≤ b)
  match config.entries.find? (fun e => e.1 == monitors) with
  | none => none
  | some (_, sc) =>
    some (sc.name, sc.fb_size,
      out_to_mon.filterMap (fun om =>
        (sc.setup.find? (fun p => p.1 == om.2)).map (fun p => (om.1, p.2))))

/-- `switch_setup`: one synchronization pass.  Returns the write-request
trace it issues: empty when no profile matches (only an error is logged)
or when `apply_config` fails; otherwise `apply_config`'s trace. -/
def switch_setup (config : Config) (env : XEnv) (mon_of : Output → Option Monitor)
    (res : ScreenResources) : List XRequest :=
  match get_config config mon_of res.outputs with
  | some (_, fb_size, setup_list) =>
    match apply_config env res fb_size
        (fun o => (setup_list.find? (fun p => p.1 == o)).map Prod.snd) with
    | .ok (_, tr) => tr
    | .error _ => []
  | none => []

/-- A sequence of `allocate_crtc` requests within one synchronization pass,
threading the free set exactly as `apply_config`'s first loop does.
Returns the per-request results, the final free set, and a flag recording
whether every returned crtc was a member of the free set at the moment of
its allocation. -/
def allocate_pass (infos : List GetOutputInfoReply) (free : List Crtc) :
    List (Option Crtc) × List Crtc × Bool :=
  match infos with
  | [] => ([], free, true)
  | i :: rest =>
    let (d, free₁) := allocate_crtc i free
    let wasFree := match d with
      | some c => free.contains c
      | none => true
    let (ds, free₂, ok) := allocate_pass rest free₁
    (d :: ds, free₂, wasFree && ok)

/-- x11rb's `SetConfig` reply status for `SetCrtcConfig`. -/
inductive SetConfig where
  | success
  | invalidConfigTime
  | invalidTime
  | failed
deriving DecidableEq, Repr

/-- The statuses `batch_config`'s inspection loop logs as failures
(`INVALID_CONFIG_TIME`, `INVALID_TIME`, `FAILED`); `_ => ()` for the
rest. -/
def is_logged_failure : SetConfig → Bool
  | .invalidConfigTime => true
  | .invalidTime => true
  | .failed => true
  | .success => false

/-- Observable steps of `batch_config`: dispatching a request (`req.send`),
awaiting the reply for request number `num` (`cookie.reply`), and logging a
failure status for request number `num`. -/
inductive BatchEvent where
  | send (r : SetCrtcConfigRequest)
  | awaitReply (num : Nat)
  | logFailure (num : Nat)
deriving DecidableEq, Repr

/-- `batch_config`: first collect the cookies (dispatching every request),
then collect every reply, then inspect each status and log failures by
index.  `replyOf n` is the server's status for request number `n`; the
result is the returned `Result<()>`, which is `Ok` regardless of reply
statuses (only connection errors, absent from the pure model, can make it
`Err`). -/
def batch_config (batch : List SetCrtcConfigRequest) (replyOf : Nat → SetConfig) :
    List BatchEvent × Except Error Unit :=
  let sends := batch.map BatchEvent.send
  let awaits := (List.range batch.length).map BatchEvent.awaitReply
  let logs := (List.range batch.length).filterMap (fun num =>
    if is_logged_failure (replyOf num) then some (BatchEvent.logFailure num) else none)
  (sends ++ awaits ++ logs, .ok ())

/-- The protocol events `daemon`'s match distinguishes. -/
inductive Event where
  | randrScreenChangeNotify
  | otherEvent
deriving DecidableEq, Repr

/-- The result of one `conn.wait_for_event()` call. -/
inductive EventResult where
  | ok (e : Event)
  | connErr
deriving DecidableEq, Repr

/-- What one iteration of `daemon`'s event loop can do: continue looping
(having run `switch_setup` or not), or leave the loop. -/
inductive LoopStep where
  | continueLoop (runsSync : Bool)
  | exitLoop
deriving DecidableEq, Repr

/-- One iteration of the `loop` in `daemon`: a screen-change notification
triggers a synchronization pass; every other event, and an `Err` from
`wait_for_event`, falls into the `_ => ()` arm.  No arm breaks the loop. -/
def daemon_step : EventResult → LoopStep
  | .ok .randrScreenChangeNotify => .continueLoop true
  | _ => .continueLoop false

/-- Running the daemon loop over a finite prefix of `wait_for_event`
results: the number of synchronization passes triggered, or `none` had any
iteration exited the loop. -/
def daemon_run : List EventResult → Option Nat
  | [] => some 0
  | e :: rest =>
    match daemon_step e with
    | .continueLoop b => (daemon_run rest).map (fun n => n + (if b then 1 else 0))
    | .exitLoop => none

/-! ## Basic lemmas about the mode index -/

instance {ε α : Type} [DecidableEq ε] [DecidableEq α] : DecidableEq (Except ε α) := fun a b =>
  match a, b with
  | .ok x, .ok y => if h : x = y then .isTrue (by simp [h]) else .isFalse (by simp [h])
  | .error x, .error y => if h : x = y then .isTrue (by simp [h]) else .isFalse (by simp [h])
  | .ok _, .error _ => .isFalse (by simp)
  | .error _, .ok _ => .isFalse (by simp)

theorem mem_mode_map {modes : List ModeInfo} {m : Mode} {i : ModeId} :
    i ∈ mode_map modes m ↔ ∃ mi ∈ modes, mi.width = m.w ∧ mi.height = m.h ∧ mi.id = i := by
  simp only [mode_map, List.mem_map, List.mem_filter, Bool.and_eq_true, beq_iff_eq]
  constructor
  · rintro ⟨mi, ⟨hmem, hw, hh⟩, hid⟩
    exact ⟨mi, hmem, hw, hh, hid⟩
  · rintro ⟨mi, hmem, hw, hh, hid⟩
    exact ⟨mi, ⟨hmem, hw, hh⟩, hid⟩

theorem mode_map_eq_nil {modes : List ModeInfo} {m : Mode} :
    mode_map modes m = [] ↔ ∀ mi ∈ modes, ¬(mi.width = m.w ∧ mi.height = m.h) := by
  simp [mode_map, List.map_eq_nil_iff, List.filter_eq_nil_iff]

/-- C5: mode resolution fails with `ModeNotFound` exactly when no server
mode has the target's (width, height); otherwise it fails with
`ModeNotSupported` exactly when none of the output's supported mode ids
lies in the target size's id set (the intersection is empty); and a
successful resolution returns an id from that intersection. -/
theorem find_mode_id_spec (info : GetOutputInfoReply) (modes : List ModeInfo) (mode : Mode) :
    (find_mode_id info modes mode = .error (.ModeNotFound mode) ↔
      ∀ mi ∈ modes, ¬(mi.width = mode.w ∧ mi.height = mode.h)) ∧
    (find_mode_id info modes mode = .error (.ModeNotSupported mode) ↔
      (∃ mi ∈ modes, mi.width = mode.w ∧ mi.height = mode.h) ∧
        ∀ i ∈ info.modes, i ∉ mode_map modes mode) ∧
    (∀ r, find_mode_id info modes mode = .ok r →
      r ∈ info.modes ∧ r ∈ mode_map modes mode) := by
  unfold find_mode_id
  by_cases hempty : (mode_map modes mode).isEmpty
  · rw [List.isEmpty_iff] at hempty
    simp only [hempty, List.isEmpty_nil, if_true]
    refine ⟨?_, ?_, ?_⟩
    · exact iff_of_true trivial (mode_map_eq_nil.mp hempty)
    · constructor
      · intro h; exact absurd h (by simp)
      · rintro ⟨⟨mi, hmem, hw, hh⟩, -⟩
        exact absurd ⟨hw, hh⟩ (mode_map_eq_nil.mp hempty mi hmem)
    · intro r h; exact absurd h (by simp)
  · rw [List.isEmpty_iff] at hempty
    simp only [List.isEmpty_iff, if_neg hempty]
    rcases hfind : info.modes.find? (fun m => (mode_map modes mode).contains m) with _ | m₀
    · rw [List.find?_eq_none] at hfind
      refine ⟨?_, ?_, ?_⟩
      · constructor
        · intro h; exact absurd h (by simp)
        · intro h; exact absurd (mode_map_eq_nil.mpr h) hempty
      · constructor
        · intro _
          refine ⟨?_, ?_⟩
          · obtain ⟨i, hi⟩ := List.exists_mem_of_ne_nil _ hempty
            obtain ⟨mi, hmem, hw, hh, -⟩ := mem_mode_map.mp hi
            exact ⟨mi, hmem, hw, hh⟩
          · intro i hi
            have := hfind i hi
            simpa [List.contains, List.elem_iff] using this
        · intro _; rfl
      · intro r h; exact absurd h (by simp)
    · have hmem := List.mem_of_find?_eq_some hfind
      have hp := List.find?_some hfind
      rw [show ((mode_map modes mode).contains m₀) = (mode_map modes mode).elem m₀ from rfl,
        List.elem_iff] at hp
      refine ⟨?_, ?_, ?_⟩
      · constructor
        · intro h; exact absurd h (by simp)
        · intro h; exact absurd (mode_map_eq_nil.mpr h) hempty
      · constructor
        · intro h; exact absurd h (by simp)
        · rintro ⟨-, hnone⟩
          exact absurd hp (hnone m₀ hmem)
      · intro r h
        simp only [Except.ok.injEq] at h
        subst h
        exact ⟨hmem, hp⟩

/-- Witness for `find_mode_id_spec` at the spec's own example: the mode
index holds (800,600) ↦ {10, 11}; a connector with capable set {11, 12}
resolves to 11, one with {12, 13} gets `ModeNotSupported`, and a size
absent from the index gets `ModeNotFound`. -/
theorem find_mode_id_spec_witness :
    find_mode_id ⟨0, [], [11, 12], 0, 0⟩ [⟨10, 800, 600⟩, ⟨11, 800, 600⟩] ⟨800, 600⟩
        = .ok 11 ∧
    (11 ∈ ([11, 12] : List ModeId) ∧
      11 ∈ mode_map [⟨10, 800, 600⟩, ⟨11, 800, 600⟩] ⟨800, 600⟩) ∧
    find_mode_id ⟨0, [], [12, 13], 0, 0⟩ [⟨10, 800, 600⟩, ⟨11, 800, 600⟩] ⟨800, 600⟩
        = .error (.ModeNotSupported ⟨800, 600⟩) ∧
    find_mode_id ⟨0, [], [11, 12], 0, 0⟩ [⟨10, 800, 600⟩, ⟨11, 800, 600⟩] ⟨100, 100⟩
        = .error (.ModeNotFound ⟨100, 100⟩) :=
  ⟨by decide,
    (find_mode_id_spec ⟨0, [], [11, 12], 0, 0⟩ [⟨10, 800, 600⟩, ⟨11, 800, 600⟩]
        ⟨800, 600⟩).2.2 11 (by decide),
    ((find_mode_id_spec ⟨0, [], [12, 13], 0, 0⟩ [⟨10, 800, 600⟩, ⟨11, 800, 600⟩]
        ⟨800, 600⟩).2.1).mpr (by decide),
    (find_mode_id_spec ⟨0, [], [11, 12], 0, 0⟩ [⟨10, 800, 600⟩, ⟨11, 800, 600⟩]
        ⟨100, 100⟩).1.mpr (by decide)⟩

/-! ## Lemmas about the crtc allocator -/

theorem allocate_crtc_fst (info : GetOutputInfoReply) (free : List Crtc) :
    (allocate_crtc info free).1 =
      (if info.crtc != 0 then some info.crtc
       else info.crtcs.find? fun c => free.contains c) := by
  unfold allocate_crtc
  rcases hd : (if info.crtc != 0 then some info.crtc
      else info.crtcs.find? fun c => free.contains c) with _ | d <;> simp [hd]

theorem allocate_crtc_snd (info : GetOutputInfoReply) (free : List Crtc) :
    (allocate_crtc info free).2 =
      match (allocate_crtc info free).1 with
      | some d => free.filter fun c => c != d
      | none => free := by
  unfold allocate_crtc
  rcases hd : (if info.crtc != 0 then some info.crtc
      else info.crtcs.find? fun c => free.contains c) with _ | d <;> simp [hd]

theorem allocate_crtc_none_eq {info : GetOutputInfoReply} {free : List Crtc}
    (h : (allocate_crtc info free).1 = none) : allocate_crtc info free = (none, free) := by
  have h2 := allocate_crtc_snd info free
  rw [h] at h2
  exact Prod.ext h h2

theorem allocate_crtc_some_eq {info : GetOutputInfoReply} {free : List Crtc} {d : Crtc}
    (h : (allocate_crtc info free).1 = some d) :
    allocate_crtc info free = (some d, free.filter fun c => c != d) := by
  have h2 := allocate_crtc_snd info free
  rw [h] at h2
  exact Prod.ext h h2

/-- C4: when the output's bound crtc field is nonzero the allocator returns
it; when it is zero the allocator returns the first entry of the output's
crtc-capable list present in the free set (failing exactly when none is);
and when it fails, `process_output` (the caller in `apply_config`) raises
`NoCrtc` carrying the monitor's name. -/
theorem allocate_crtc_spec (info : GetOutputInfoReply) (free : List Crtc) :
    (info.crtc ≠ 0 → (allocate_crtc info free).1 = some info.crtc) ∧
    (info.crtc = 0 →
      (((allocate_crtc info free).1 = none) ↔ ∀ c ∈ info.crtcs, c ∉ free) ∧
      (∀ c, (allocate_crtc info free).1 = some c →
        c ∈ free ∧ ∃ i, ∃ h : i < info.crtcs.length, info.crtcs.get ⟨i, h⟩ = c ∧
          ∀ j, ∀ hj : j < i, info.crtcs.get ⟨j, by omega⟩ ∉ free)) ∧
    (∀ env conf out st m, env.output_info out = info → st.free = free →
      find_mode_id info env.screen_modes conf.mode = .ok m →
      (allocate_crtc info free).1 = none →
      process_output env conf out st = .error (.NoCrtc conf.name)) := by
  refine ⟨?_, ?_, ?_⟩
  · intro h
    rw [allocate_crtc_fst, if_pos (by simpa using h)]
  · intro h
    rw [allocate_crtc_fst, if_neg (by simp [h])] at *
    constructor
    · rw [List.find?_eq_none]
      simp [List.contains, List.elem_iff]
    · intro c hc
      rw [List.find?_eq_some_iff_getElem] at hc
      obtain ⟨hp, i, hi, hgc, hfirst⟩ := hc
      rw [show (free.contains c) = free.elem c from rfl, List.elem_iff] at hp
      refine ⟨hp, i, hi, by simpa using hgc, ?_⟩
      intro j hj
      have := hfirst j hj
      simpa [List.contains, List.elem_iff] using this
  · intro env conf out st m hinfo hfree hok hnone
    rw [← hfree] at hnone
    unfold process_output
    rw [hinfo]
    simp only [hok, allocate_crtc_none_eq hnone]
    rfl

/-- Witness for `allocate_crtc_spec`: an output bound to crtc 7 gets crtc 7
back even though 1, 2 and 3 are free; and an output with bound crtc 0 and
no capable crtc makes `process_output` fail with `NoCrtc "mon"`. -/
theorem allocate_crtc_spec_witness :
    (allocate_crtc ⟨7, [1, 2], [], 0, 0⟩ [1, 2, 3]).1 = some 7 ∧
    process_output ⟨[⟨10, 800, 600⟩], fun _ => ⟨0, [], [10], 0, 0⟩,
        fun _ => ⟨0, 0, 0, 0, 0, []⟩, ⟨0, 0⟩⟩ ⟨"mon", ⟨800, 600⟩, ⟨0, 0⟩⟩ 4 ⟨[], [], 0, 0⟩
      = .error (.NoCrtc "mon") :=
  ⟨(allocate_crtc_spec ⟨7, [1, 2], [], 0, 0⟩ [1, 2, 3]).1 (by decide),
    (allocate_crtc_spec ⟨0, [], [10], 0, 0⟩ []).2.2 _ ⟨"mon", ⟨800, 600⟩, ⟨0, 0⟩⟩ 4
      ⟨[], [], 0, 0⟩ 10 rfl rfl (by decide) (by decide)⟩

theorem allocate_pass_cons (i : GetOutputInfoReply) (rest : List GetOutputInfoReply)
    (free : List Crtc) :
    allocate_pass (i :: rest) free =
      ((allocate_crtc i free).1 :: (allocate_pass rest (allocate_crtc i free).2).1,
       (allocate_pass rest (allocate_crtc i free).2).2.1,
       (match (allocate_crtc i free).1 with
         | some c => free.contains c
         | none => true) && (allocate_pass rest (allocate_crtc i free).2).2.2) := by
  rcases h1 : allocate_crtc i free with ⟨d, free₁⟩
  rcases h2 : allocate_pass rest free₁ with ⟨ds, free₂, ok⟩
  simp only [allocate_pass, h1, h2]

theorem length_filter_ne_lt {d : Crtc} {l : List Crtc} (h : d ∈ l) :
    (l.filter fun c => c != d).length < l.length := by
  induction l with
  | nil => cases h
  | cons a l ih =>
    by_cases ha : a = d
    · subst ha
      simp only [List.filter_cons, bne_self_eq_false, List.length_cons]
      exact Nat.lt_succ_of_le (List.length_filter_le _ _)
    · rcases List.mem_cons.mp h with h' | h'
      · exact absurd h'.symm ha
      · have hbd : (a != d) = true := by simpa using ha
        simp only [List.filter_cons, hbd, if_true, List.length_cons]
        exact Nat.succ_lt_succ (ih h')

/-- C3 counterexample to the claim as stated: two outputs whose info
reports the same nonzero bound crtc 5 make the allocator yield crtc 5
twice within one pass, and the free set {1, 2} does not shrink at all. -/
theorem allocate_pass_cex :
    (allocate_pass [⟨5, [], [], 0, 0⟩, ⟨5, [], [], 0, 0⟩] [1, 2]).1 = [some 5, some 5] ∧
    (allocate_pass [⟨5, [], [], 0, 0⟩, ⟨5, [], [], 0, 0⟩] [1, 2]).2.1 = [1, 2] := by
  decide

/-- C3 (amended): provided every successful allocation of the pass returned
a crtc that was in the free set at the moment of its allocation (recorded
by `allocate_pass`'s flag; in particular whenever outputs' bound-crtc
fields are zero or still free and mutually distinct), the allocator never
yields the same crtc twice: the successes are pairwise distinct, each
comes from the initial free set, each is removed from the free set (none
remains in the final free set, which is contained in the initial one), and
the free set strictly shrinks with each assignment (final size + number of
assignments ≤ initial size). -/
theorem allocate_pass_nodup (infos : List GetOutputInfoReply) (free : List Crtc)
    (h : (allocate_pass infos free).2.2 = true) :
    ((allocate_pass infos free).1.filterMap id).Nodup ∧
    (∀ c ∈ (allocate_pass infos free).1.filterMap id, c ∈ free) ∧
    (∀ c ∈ (allocate_pass infos free).1.filterMap id, c ∉ (allocate_pass infos free).2.1) ∧
    (allocate_pass infos free).2.1 ⊆ free ∧
    (allocate_pass infos free).2.1.length + ((allocate_pass infos free).1.filterMap id).length
      ≤ free.length := by
  induction infos generalizing free with
  | nil => simp [allocate_pass, List.Subset.refl]
  | cons i rest ih =>
    rw [allocate_pass_cons] at h ⊢
    rcases hd : (allocate_crtc i free).1 with _ | d
    · rw [allocate_crtc_none_eq hd] at h ⊢
      dsimp only at h ⊢
      simp only [Bool.true_and] at h
      simp only [List.filterMap_cons]
      exact ih free h
    · rw [allocate_crtc_some_eq hd] at h ⊢
      dsimp only at h ⊢
      simp only [Bool.and_eq_true] at h
      obtain ⟨hdfree, hok⟩ := h
      rw [show (free.contains d) = free.elem d from rfl, List.elem_iff] at hdfree
      have hsub₁ : (free.filter fun c => c != d) ⊆ free := fun c hc =>
        (List.mem_filter.mp hc).1
      have hdnot₁ : d ∉ (free.filter fun c => c != d) := by
        intro hc
        have := (List.mem_filter.mp hc).2
        simp at this
      have hlen₁ : (free.filter fun c => c != d).length < free.length :=
        length_filter_ne_lt hdfree
      obtain ⟨ihnd, ihmem, ihnotfin, ihsub, ihlen⟩ := ih (free.filter fun c => c != d) hok
      simp only [List.filterMap_cons, Option.some.injEq, id] at *
      refine ⟨?_, ?_, ?_, ?_, ?_⟩
      · exact List.nodup_cons.mpr ⟨fun hmem => hdnot₁ (ihmem d hmem), ihnd⟩
      · intro c hc
        rcases List.mem_cons.mp hc with rfl | hc
        · exact hdfree
        · exact hsub₁ (ihmem c hc)
      · intro c hc
        rcases List.mem_cons.mp hc with rfl | hc
        · exact fun hfin => hdnot₁ (ihsub hfin)
        · exact ihnotfin c hc
      · exact fun c hc => hsub₁ (ihsub hc)
      · simp only [List.length_cons]
        omega

/-- Witness for `allocate_pass_nodup`: two outputs with bound-crtc 0 and
capable list [1, 2] over the free set {1, 2} pass the all-free check and
get the distinct crtcs 1 and 2. -/
theorem allocate_pass_nodup_witness :
    (allocate_pass [⟨0, [1, 2], [], 0, 0⟩, ⟨0, [1, 2], [], 0, 0⟩] [1, 2]).2.2 = true ∧
    ((allocate_pass [⟨0, [1, 2], [], 0, 0⟩, ⟨0, [1, 2], [], 0, 0⟩] [1, 2]).1.filterMap
        id).Nodup ∧
    (allocate_pass [⟨0, [1, 2], [], 0, 0⟩, ⟨0, [1, 2], [], 0, 0⟩] [1, 2]).1
      = [some 1, some 2] :=
  ⟨by decide,
    (allocate_pass_nodup [⟨0, [1, 2], [], 0, 0⟩, ⟨0, [1, 2], [], 0, 0⟩] [1, 2]
      (by decide)).1,
    by decide⟩

/-! ## The commit decision and the commit order -/

theorem commit_trace_ne_nil {current fb_size : Mode}
    {disables enables : List SetCrtcConfigRequest} {mm_w mm_h : Nat}
    (h : ¬(disables = [] ∧ enables = [] ∧ current = fb_size)) :
    commit_trace current fb_size disables enables mm_w mm_h ≠ [] := by
  intro hnil
  simp only [commit_trace, List.append_eq_nil, List.map_eq_nil_iff] at hnil
  obtain ⟨⟨⟨hd, hg⟩, he⟩, hs⟩ := hnil
  have hcg : current = current.union fb_size := by
    by_contra hne
    rw [if_pos hne] at hg
    exact List.cons_ne_nil _ _ hg
  have hgf : current.union fb_size = fb_size := by
    by_contra hne
    rw [if_pos hne] at hs
    exact List.cons_ne_nil _ _ hs
  exact h ⟨hd, he, hcg.trans hgf⟩

/-- C1: when `step1` succeeds, `apply_config` reports "unchanged"
(returns `false` and issues no write request) if and only if the computed
disable queue and enable queue are both empty and the current framebuffer
size equals the target; in every other case it performs the commit
sequence and reports "changed" (returns `true`, and the issued trace is
nonempty). -/
theorem apply_config_unchanged_iff (env : XEnv) (res : ScreenResources) (fb_size : Mode)
    (setup : Output → Option MonConfig) (st : Step1State)
    (hst : step1 env setup res.outputs res.crtcs = .ok st) :
    (apply_config env res fb_size setup = .ok (false, []) ↔
      compute_disables env st.free = [] ∧ st.enables = [] ∧ env.geometry = fb_size) ∧
    (¬(compute_disables env st.free = [] ∧ st.enables = [] ∧ env.geometry = fb_size) →
      apply_config env res fb_size setup =
        .ok (true, commit_trace env.geometry fb_size (compute_disables env st.free)
          st.enables st.mm_w st.mm_h) ∧
      commit_trace env.geometry fb_size (compute_disables env st.free)
          st.enables st.mm_w st.mm_h ≠ []) := by
  unfold apply_config
  simp only [hst]
  by_cases hcond : compute_disables env st.free = [] ∧ st.enables = [] ∧
      env.geometry = fb_size
  · obtain ⟨h1, h2, h3⟩ := hcond
    rw [if_pos (by simp [h1, h2, h3])]
    exact ⟨iff_of_true rfl ⟨h1, h2, h3⟩, fun hn => absurd ⟨h1, h2, h3⟩ hn⟩
  · rw [if_neg (by
      intro hb
      simp only [Bool.and_eq_true, List.isEmpty_iff, beq_iff_eq] at hb
      exact hcond ⟨hb.1.1, hb.1.2, hb.2⟩)]
    refine ⟨?_, fun _ => ⟨rfl, commit_trace_ne_nil hcond⟩⟩
    constructor
    · intro heq
      simp at heq
    · intro hc
      exact absurd hc hcond

/-- Witness for `apply_config_unchanged_iff`: with no configured outputs,
no crtcs, and the framebuffer already at the target size, `apply_config`
reports "unchanged" and issues no write. -/
theorem apply_config_unchanged_iff_witness :
    apply_config ⟨[], fun _ => ⟨0, [], [], 0, 0⟩, fun _ => ⟨0, 0, 0, 0, 0, []⟩, ⟨0, 0⟩⟩
        ⟨[], []⟩ ⟨0, 0⟩ (fun _ => none) = .ok (false, []) :=
  ((apply_config_unchanged_iff ⟨[], fun _ => ⟨0, [], [], 0, 0⟩,
      fun _ => ⟨0, 0, 0, 0, 0, []⟩, ⟨0, 0⟩⟩ ⟨[], []⟩ ⟨0, 0⟩ (fun _ => none)
      ⟨[], [], 0, 0⟩ rfl).1).mpr ⟨rfl, rfl, rfl⟩

theorem mem_compute_disables {env : XEnv} {free : List Crtc} {r : SetCrtcConfigRequest}
    (h : r ∈ compute_disables env free) : r.mode = 0 ∧ r.outputs = [] := by
  simp only [compute_disables, List.mem_filterMap] at h
  obtain ⟨crtc, -, hr⟩ := h
  by_cases hc : !(env.crtc_info crtc).outputs.isEmpty || (env.crtc_info crtc).mode != 0
  · rw [if_pos hc] at hr
    cases hr
    exact ⟨rfl, rfl⟩
  · rw [if_neg hc] at hr
    cases hr

/-- C2: in every committing run of `apply_config`, the issued request
trace is: the disable batch (requests with mode 0 and no outputs) first,
then possibly one framebuffer resize to the component-wise maximum of the
current and target sizes (hence ≥ both the before and after sizes in each
dimension), then the enable batch, and finally — and only as the final
step — possibly one resize down to the target size; when that final resize
is absent the intermediate size already equals the target, so the
framebuffer is never shrunk below the current size before the enable batch
is sent. -/
theorem apply_config_commit_order (env : XEnv) (res : ScreenResources) (fb_size : Mode)
    (setup : Output → Option MonConfig) (st : Step1State) (tr : List XRequest)
    (hst : step1 env setup res.outputs res.crtcs = .ok st)
    (h : apply_config env res fb_size setup = .ok (true, tr)) :
    ∃ grow shrink,
      tr = (compute_disables env st.free).map XRequest.setCrtcConfig ++ grow
          ++ st.enables.map XRequest.setCrtcConfig ++ shrink ∧
      (∀ r ∈ compute_disables env st.free, r.mode = 0 ∧ r.outputs = []) ∧
      (grow = [] ∨ grow = [XRequest.setScreenSize (env.geometry.union fb_size).w
          (env.geometry.union fb_size).h st.mm_w st.mm_h]) ∧
      env.geometry.w ≤ (env.geometry.union fb_size).w ∧
      env.geometry.h ≤ (env.geometry.union fb_size).h ∧
      fb_size.w ≤ (env.geometry.union fb_size).w ∧
      fb_size.h ≤ (env.geometry.union fb_size).h ∧
      (shrink = [] ∨
        shrink = [XRequest.setScreenSize fb_size.w fb_size.h st.mm_w st.mm_h]) ∧
      (shrink = [] → env.geometry.union fb_size = fb_size) := by
  unfold apply_config at h
  simp only [hst] at h
  have htr : tr = commit_trace env.geometry fb_size (compute_disables env st.free)
      st.enables st.mm_w st.mm_h := by
    by_cases hcond : ((compute_disables env st.free).isEmpty && (st.enables.isEmpty &&
        (env.geometry == fb_size)).and true = true)
    · rcases hif : ((compute_disables env st.free).isEmpty && st.enables.isEmpty &&
          (env.geometry == fb_size)) with _ | _
      · rw [if_neg (by simp [hif])] at h
        simpa using h.symm
      · rw [if_pos (by simp [hif])] at h
        simp at h
    · rcases hif : ((compute_disables env st.free).isEmpty && st.enables.isEmpty &&
          (env.geometry == fb_size)) with _ | _
      · rw [if_neg (by simp [hif])] at h
        simpa using h.symm
      · rw [if_pos (by simp [hif])] at h
        simp at h
  subst htr
  refine ⟨(if env.geometry ≠ env.geometry.union fb_size then
      [XRequest.setScreenSize (env.geometry.union fb_size).w
        (env.geometry.union fb_size).h st.mm_w st.mm_h] else []),
    (if env.geometry.union fb_size ≠ fb_size then
      [XRequest.setScreenSize fb_size.w fb_size.h st.mm_w st.mm_h] else []), ?_,
    fun r hr => mem_compute_disables hr, ?_, ?_, ?_, ?_, ?_, ?_, ?_⟩
  · simp [commit_trace]
  · by_cases hg : env.geometry = env.geometry.union fb_size
    · exact Or.inl (by rw [if_neg (by simpa using hg)])
    · exact Or.inr (by rw [if_pos hg])
  · exact Nat.le_max_left _ _
  · exact Nat.le_max_left _ _
  · exact Nat.le_max_right _ _
  · exact Nat.le_max_right _ _
  · by_cases hs : env.geometry.union fb_size = fb_size
    · exact Or.inl (by rw [if_neg (by simpa using hs)])
    · exact Or.inr (by rw [if_pos hs])
  · intro hnil
    by_contra hne
    rw [if_pos hne] at hnil
    exact List.cons_ne_nil _ _ hnil

/-- Witness for `apply_config_commit_order`: a run whose only work is
disabling crtc 5 (it has a nonzero mode and no configured output) commits
exactly that disable request. -/
theorem apply_config_commit_order_witness :
    ∃ grow shrink,
      ([XRequest.setCrtcConfig ⟨5, 0, 0, 0, 0, 0, 0, []⟩] : List XRequest) =
        (compute_disables ⟨[], fun _ => ⟨0, [], [], 0, 0⟩, fun _ => ⟨0, 0, 0, 7, 0, []⟩,
            ⟨0, 0⟩⟩ (⟨[5], [], 0, 0⟩ : Step1State).free).map XRequest.setCrtcConfig
          ++ grow ++ (⟨[5], [], 0, 0⟩ : Step1State).enables.map XRequest.setCrtcConfig
          ++ shrink := by
  obtain ⟨g, s, h1, -⟩ := apply_config_commit_order
    ⟨[], fun _ => ⟨0, [], [], 0, 0⟩, fun _ => ⟨0, 0, 0, 7, 0, []⟩, ⟨0, 0⟩⟩ ⟨[5], []⟩
    ⟨0, 0⟩ (fun _ => none) ⟨[5], [], 0, 0⟩
    [XRequest.setCrtcConfig ⟨5, 0, 0, 0, 0, 0, 0, []⟩] rfl rfl
  exact ⟨g, s, h1⟩

/-- C9: for a configured output processed in step 1 of `apply_config`,
once its mode resolves to `m` and the allocator yields controller `d` (the
generated request targets exactly the allocated controller, so the
output's crtc matches it by construction), a change request is appended to
the enable queue if and only if the desired position or resolved mode
differs from that controller's current state; when position, mode (and
trivially the crtc) all already match, no request is generated. -/
theorem process_output_skip_iff (env : XEnv) (conf : MonConfig) (out : Output)
    (st : Step1State) (m : ModeId) (d : Crtc)
    (hm : find_mode_id (env.output_info out) env.screen_modes conf.mode = .ok m)
    (hd : (allocate_crtc (env.output_info out) st.free).1 = some d) :
    ∃ st', process_output env conf out st = .ok st' ∧
      (st'.enables = st.enables ↔
        conf.position.x = (env.crtc_info d).x ∧ conf.position.y = (env.crtc_info d).y ∧
          m = (env.crtc_info d).mode) ∧
      (¬(conf.position.x = (env.crtc_info d).x ∧ conf.position.y = (env.crtc_info d).y ∧
          m = (env.crtc_info d).mode) →
        st'.enables = st.enables ++ [{ disable_crtc d (env.crtc_info d) with
          x := conf.position.x, y := conf.position.y, rotation := 1, mode := m,
          outputs := [out] }]) := by
  have hreq : process_output env conf out st =
      .ok { free := (allocate_crtc (env.output_info out) st.free).2,
            enables := if (conf.position.x != (env.crtc_info d).x
                || conf.position.y != (env.crtc_info d).y
                || m != (env.crtc_info d).mode) then
                st.enables ++ [{ disable_crtc d (env.crtc_info d) with
                  x := conf.position.x, y := conf.position.y, rotation := 1, mode := m,
                  outputs := [out] }]
              else st.enables,
            mm_w := st.mm_w + (env.output_info out).mm_width,
            mm_h := st.mm_h + (env.output_info out).mm_height } := by
    unfold process_output
    simp only [hm, allocate_crtc_some_eq hd]
    rfl
  rcases hcond : (conf.position.x != (env.crtc_info d).x
      || conf.position.y != (env.crtc_info d).y || m != (env.crtc_info d).mode) with _ | _
  · rw [hcond, if_neg (by simp)] at hreq
    simp only [Bool.or_eq_false_iff, bne_eq_false_iff_eq] at hcond
    refine ⟨_, hreq, ?_, ?_⟩
    · exact iff_of_true rfl ⟨hcond.1.1, hcond.1.2, hcond.2⟩
    · intro hno
      exact absurd ⟨hcond.1.1, hcond.1.2, hcond.2⟩ hno
  · rw [hcond, if_pos rfl] at hreq
    simp only [Bool.or_eq_true, bne_iff_ne] at hcond
    have hne : st.enables ++ [{ disable_crtc d (env.crtc_info d) with
        x := conf.position.x, y := conf.position.y, rotation := 1, mode := m,
        outputs := [out] }] ≠ st.enables := by
      intro heq
      have := congrArg List.length heq
      simp at this
    refine ⟨_, hreq, ?_, fun _ => rfl⟩
    refine iff_of_false hne ?_
    rintro ⟨h1, h2, h3⟩
    rcases hcond with (h | h) | h
    · exact h h1
    · exact h h2
    · exact h h3

/-- Witness for `process_output_skip_iff`: the desired position and mode
already match crtc 3's current state, so no enable request is queued. -/
theorem process_output_skip_iff_witness :
    ∃ st', process_output ⟨[⟨10, 800, 600⟩], fun _ => ⟨3, [3], [10], 0, 0⟩,
        fun _ => ⟨0, 0, 0, 10, 0, [4]⟩, ⟨0, 0⟩⟩ ⟨"mon", ⟨800, 600⟩, ⟨0, 0⟩⟩ 4
        ⟨[3], [], 0, 0⟩ = .ok st' ∧ st'.enables = [] := by
  obtain ⟨st', heq, hiff, -⟩ := process_output_skip_iff
    ⟨[⟨10, 800, 600⟩], fun _ => ⟨3, [3], [10], 0, 0⟩, fun _ => ⟨0, 0, 0, 10, 0, [4]⟩,
      ⟨0, 0⟩⟩ ⟨"mon", ⟨800, 600⟩, ⟨0, 0⟩⟩ 4 ⟨[3], [], 0, 0⟩ 10 3 (by decide) (by decide)
  exact ⟨st', heq, hiff.mpr (by decide)⟩

/-- C7: `batch_config` dispatches every request in the batch before
awaiting any reply, then collects all replies; a failure status in an
individual reply is logged with its index but does not stop inspection of
the remaining replies, does not undo any applied request, and does not
make `batch_config` return an error — the result is success regardless of
statuses, the trace is all sends, then all awaits, then the logs, and the
logged indices are exactly the failing ones. -/
theorem batch_config_spec (batch : List SetCrtcConfigRequest) (replyOf : Nat → SetConfig) :
    (batch_config batch replyOf).2 = .ok () ∧
    ∃ logs,
      (batch_config batch replyOf).1 =
        batch.map BatchEvent.send ++ (List.range batch.length).map BatchEvent.awaitReply
          ++ logs ∧
      (∀ num, BatchEvent.logFailure num ∈ logs ↔
        num < batch.length ∧ is_logged_failure (replyOf num) = true) ∧
      (∀ e ∈ logs, ∃ num, e = BatchEvent.logFailure num) := by
  refine ⟨rfl, (List.range batch.length).filterMap (fun num =>
      if is_logged_failure (replyOf num) then some (BatchEvent.logFailure num) else none),
    rfl, ?_, ?_⟩
  · intro num
    simp only [List.mem_filterMap, List.mem_range]
    constructor
    · rintro ⟨a, ha, hif⟩
      by_cases hf : is_logged_failure (replyOf a)
      · rw [if_pos hf] at hif
        cases hif
        exact ⟨ha, hf⟩
      · rw [if_neg hf] at hif
        cases hif
    · rintro ⟨hlt, hf⟩
      exact ⟨num, hlt, by rw [if_pos hf]⟩
  · intro e he
    simp only [List.mem_filterMap, List.mem_range] at he
    obtain ⟨a, -, hif⟩ := he
    by_cases hf : is_logged_failure (replyOf a)
    · rw [if_pos hf] at hif
      cases hif
      exact ⟨a, rfl⟩
    · rw [if_neg hf] at hif
      cases hif

/-- Witness for `batch_config_spec`: two requests, the first reply failing:
the trace is send, send, await, await, log-failure-0 and the result is
still success. -/
theorem batch_config_spec_witness :
    (batch_config [⟨1, 0, 0, 0, 0, 0, 0, []⟩, ⟨2, 0, 0, 0, 0, 0, 0, []⟩]
        (fun n => if n = 0 then SetConfig.failed else SetConfig.success)).2 = .ok () ∧
    (batch_config [⟨1, 0, 0, 0, 0, 0, 0, []⟩, ⟨2, 0, 0, 0, 0, 0, 0, []⟩]
        (fun n => if n = 0 then SetConfig.failed else SetConfig.success)).1 =
      [.send ⟨1, 0, 0, 0, 0, 0, 0, []⟩, .send ⟨2, 0, 0, 0, 0, 0, 0, []⟩,
        .awaitReply 0, .awaitReply 1, .logFailure 0] :=
  ⟨(batch_config_spec [⟨1, 0, 0, 0, 0, 0, 0, []⟩, ⟨2, 0, 0, 0, 0, 0, 0, []⟩]
      (fun n => if n = 0 then SetConfig.failed else SetConfig.success)).1,
    by decide⟩

/-- C6: when the canonical sorted form of the live monitor set equals no
profile key, one synchronization pass issues no protocol write request at
all — the server's configuration is left untouched, the only effect being
a logged error; there is no retry and no fallback profile. -/
theorem switch_setup_no_match (config : Config) (env : XEnv)
    (mon_of : Output → Option Monitor) (res : ScreenResources)
    (h : ∀ e ∈ config.entries, e.1 ≠
      ((get_monitors mon_of res.outputs).map Prod.snd).insertionSort (fun a b => a ≤ b)) :
    switch_setup config env mon_of res = [] := by
  have hge : get_config config mon_of res.outputs = none := by
    unfold get_config
    have hf : config.entries.find? (fun e => e.1 ==
        ((get_monitors mon_of res.outputs).map Prod.snd).insertionSort (fun a b => a ≤ b))
        = none := by
      rw [List.find?_eq_none]
      intro e he
      simpa using h e he
    simp only [hf]
  unfold switch_setup
  rw [hge]

/-- Witness for `switch_setup_no_match`: a config keyed by {5} and a live
set with no identifiable monitor produce an empty write trace. -/
theorem switch_setup_no_match_witness :
    switch_setup ⟨[([5], ⟨"solo", [], ⟨1920, 1080⟩⟩)]⟩
      ⟨[], fun _ => ⟨0, [], [], 0, 0⟩, fun _ => ⟨0, 0, 0, 0, 0, []⟩, ⟨0, 0⟩⟩
      (fun _ => none) ⟨[], [1]⟩ = [] :=
  switch_setup_no_match ⟨[([5], ⟨"solo", [], ⟨1920, 1080⟩⟩)]⟩
    ⟨[], fun _ => ⟨0, [], [], 0, 0⟩, fun _ => ⟨0, 0, 0, 0, 0, []⟩, ⟨0, 0⟩⟩
    (fun _ => none) ⟨[], [1]⟩ (by decide)

/-- C8: the profile matcher sorts the attached identities into one
canonical order and looks the sorted list up by exact equality: a profile
is returned iff some profile key equals the canonical sorted form (so
subset or superset keys never match, and one extra or missing identity
defeats every key), and on a match the returned triple is the found
profile's name, its framebuffer size, and the map restricted to live
outputs whose identity the profile configures. -/
theorem get_config_exact (config : Config) (mon_of : Output → Option Monitor)
    (outputs : List Output) :
    ((get_config config mon_of outputs).isSome ↔
      ∃ e ∈ config.entries,
        e.1 = ((get_monitors mon_of outputs).map Prod.snd).insertionSort
          (fun a b => a ≤ b)) ∧
    (∀ k sc, config.entries.find? (fun e => e.1 ==
        ((get_monitors mon_of outputs).map Prod.snd).insertionSort (fun a b => a ≤ b))
        = some (k, sc) →
      k = ((get_monitors mon_of outputs).map Prod.snd).insertionSort (fun a b => a ≤ b) ∧
      get_config config mon_of outputs = some (sc.name, sc.fb_size,
        (get_monitors mon_of outputs).filterMap (fun om =>
          (sc.setup.find? (fun p => p.1 == om.2)).map (fun p => (om.1, p.2)))) ∧
      (∀ o mc, (o, mc) ∈ (get_monitors mon_of outputs).filterMap (fun om =>
          (sc.setup.find? (fun p => p.1 == om.2)).map (fun p => (om.1, p.2))) ↔
        ∃ mon, (o, mon) ∈ get_monitors mon_of outputs ∧
          sc.setup.find? (fun p => p.1 == mon) = some (mon, mc))) := by
  constructor
  · rcases hf : config.entries.find? (fun e => e.1 ==
        ((get_monitors mon_of outputs).map Prod.snd).insertionSort (fun a b => a ≤ b))
      with _ | e
    · rw [List.find?_eq_none] at hf
      have : get_config config mon_of outputs = none := by
        unfold get_config
        simp only [List.find?_eq_none.mpr hf]
      rw [this]
      simp only [Option.isSome_none, Bool.false_eq_true, false_iff]
      rintro ⟨e, he, hkey⟩
      exact absurd (by simpa using hkey) (hf e he)
    · have hmem := List.mem_of_find?_eq_some hf
      have hp := List.find?_some hf
      have : get_config config mon_of outputs = some (e.2.name, e.2.fb_size,
          (get_monitors mon_of outputs).filterMap (fun om =>
            (e.2.setup.find? (fun p => p.1 == om.2)).map (fun p => (om.1, p.2)))) := by
        unfold get_config
        rcases e with ⟨k, sc⟩
        simp only [hf]
      rw [this]
      simp only [Option.isSome_some, true_iff]
      exact ⟨e, hmem, by simpa using hp⟩
  · intro k sc hf
    have hp := List.find?_some hf
    refine ⟨by simpa using hp, ?_, ?_⟩
    · unfold get_config
      simp only [hf]
    · intro o mc
      simp only [List.mem_filterMap, Option.map_eq_some']
      constructor
      · rintro ⟨⟨o₁, mon⟩, hom, ⟨p₁, p₂⟩, hfind, hpair⟩
        simp only [Prod.mk.injEq] at hpair
        obtain ⟨ho, hmc⟩ := hpair
        have hpk : p₁ = mon := by simpa using List.find?_some hfind
        subst ho
        subst hmc
        subst hpk
        exact ⟨_, hom, hfind⟩
      · rintro ⟨mon, hmem, hfind⟩
        exact ⟨(o, mon), hmem, (mon, mc), hfind, rfl⟩

/-- Witness for `get_config_exact`: a config keyed by the single identity
7, with output 3 carrying identity 7, matches and returns the profile
restricted to output 3. -/
theorem get_config_exact_witness :
    get_config ⟨[([7], ⟨"p", [(7, ⟨"A", ⟨1920, 1080⟩, ⟨0, 0⟩⟩)], ⟨1920, 1080⟩⟩)]⟩
      (fun o => if o == 3 then some 7 else none) [3] =
      some ("p", ⟨1920, 1080⟩, [(3, ⟨"A", ⟨1920, 1080⟩, ⟨0, 0⟩⟩)]) := by
  have h := ((get_config_exact
      ⟨[([7], ⟨"p", [(7, ⟨"A", ⟨1920, 1080⟩, ⟨0, 0⟩⟩)], ⟨1920, 1080⟩⟩)]⟩
      (fun o => if o == 3 then some 7 else none) [3]).2 [7]
      ⟨"p", [(7, ⟨"A", ⟨1920, 1080⟩, ⟨0, 0⟩⟩)], ⟨1920, 1080⟩⟩ (by decide)).2.1
  exact h.trans (by decide)

/-- C10: after successful startup the daemon's event loop never leaves the
loop and never exits the process: every `wait_for_event` outcome —
including an error and every notification kind other than a screen-change
notification — continues the loop, a synchronization pass runs exactly on
a screen-change notification, and over any finite sequence of outcomes
the loop is still running, having synced once per screen-change
notification and discarded everything else. -/
theorem daemon_loop_spec :
    (∀ e, daemon_step e ≠ .exitLoop) ∧
    (∀ e, daemon_step e = .continueLoop true ↔ e = .ok .randrScreenChangeNotify) ∧
    (∀ events : List EventResult, daemon_run events =
      some (events.countP (fun e => e == .ok .randrScreenChangeNotify))) := by
  refine ⟨?_, ?_, ?_⟩
  · rintro (e | _)
    · rcases e <;> simp [daemon_step]
    · simp [daemon_step]
  · rintro (e | _)
    · rcases e <;> simp [daemon_step]
    · simp [daemon_step]
  · intro events
    induction events with
    | nil => simp [daemon_run]
    | cons e rest ih =>
      rcases e with e | _
      · rcases e <;>
          simp [daemon_run, daemon_step, ih, List.countP_cons]
      · simp [daemon_run, daemon_step, ih, List.countP_cons]

/-- Witness for `daemon_loop_spec`: a screen change, a connection error
and an unrelated notification leave the loop running with exactly one
synchronization pass. -/
theorem daemon_loop_spec_witness :
    daemon_run [.ok .randrScreenChangeNotify, .connErr, .ok .otherEvent] = some 1 := by
  simpa using daemon_loop_spec.2.2 [.ok .randrScreenChangeNotify, .connErr, .ok .otherEvent]

end Autorandr
